import Mathlib

/-!
Verification of the SandbagFloodCalc core (src/app.py) against its
natural-language specification.

The two core operations are shallowly embedded over the reals:

* `calculate_bags` (src/app.py lines 5-53): the sandbag quantity estimator.
* `plot_wall_cross_section_with_bags` (src/app.py lines 55-130): the pure
  geometric content of the cross-section layout engine.  The matplotlib
  rendering calls are an external collaborator and carry no geometric
  information beyond the per-layer bag rectangles, which we return as data.

Python's float arithmetic is modelled by exact real arithmetic;
`math.ceil` / `math.floor` become `Int.ceil` / `Int.floor`.  A Python
`ZeroDivisionError` (division by a zero divisor) is modelled by returning
`none`: each real division on a divisor that can be zero is guarded by the
corresponding `if ... = 0 then none` test, placed in the evaluation order
of the source.
-/

/-- The wall shape selector of src/app.py (the `shape` string argument).
`Other` models any unrecognized string, which the code's trailing `else`
branch treats as a direct linear length. -/
inductive Shape where
  | Straight
  | Arc
  | Circle
  | Semicircle
  | Other
  deriving DecidableEq

/-- Shape-dependent effective wall length, src/app.py lines 31-45:
Straight and Arc use `length` unchanged, Circle interprets `length` as a
radius and takes the full circumference `2*pi*length`, Semicircle takes the
half circumference `pi*length`, and any other shape falls back to `length`. -/
noncomputable def effective_length (shape : Shape) (length : ℝ) : ℝ :=
  match shape with
  | .Straight => length
  | .Arc => length
  | .Circle => 2 * Real.pi * length
  | .Semicircle => Real.pi * length
  | .Other => length

/-- The quantity estimator `calculate_bags(height, length, shape, bag_length,
bag_height)` of src/app.py lines 5-53.  Returns `(total_bags, layers)`.
`none` models the `ZeroDivisionError` raised when a division's divisor is
zero: first `height / bag_height` (line 29), then
`effective_length / bag_length` (line 48). -/
noncomputable def calculate_bags (height length : ℝ) (shape : Shape)
    (bag_length : ℝ := 0.35) (bag_height : ℝ := 0.10) : Option (ℤ × ℤ) :=
  if bag_height = 0 then none else
  let layers : ℤ := ⌈height / bag_height⌉
  if bag_length = 0 then none else
  let bags_per_layer : ℤ := ⌈effective_length shape length / bag_length⌉
  let total_bags : ℤ := layers * bags_per_layer
  some (total_bags, layers)

/-- One bag rectangle of the cross-section drawing, src/app.py lines 109-115:
axis-aligned, horizontal span `[x_left, x_right]`, vertical span
`[y_bottom, y_top]`. -/
structure BagRect where
  x_left : ℝ
  x_right : ℝ
  y_bottom : ℝ
  y_top : ℝ

/-- One layer of the cross-section, recording the loop variables of the
body of the `for i in range(n_layers)` loop, src/app.py lines 84-115:
the layer's vertical extent, its average (midline) width, the bag count
`n_bags_layer`, and the list of drawn bag rectangles. -/
structure Layer where
  y_bottom : ℝ
  y_top : ℝ
  avg_width : ℝ
  n_bags : ℤ
  bags : List BagRect

/-- The body of the layer loop of `plot_wall_cross_section_with_bags`,
src/app.py lines 84-115, for layer index `i`.  `n_layers` and
`layer_thickness` are the loop-invariant values computed at lines 78-80;
they are recomputed here from the same inputs.  The height-zero guards on
the interpolation fractions are the `if height != 0 else` expressions of
lines 90-91. -/
noncomputable def mkLayer (height bag_height w_base w_top bag_width : ℝ)
    (i : ℕ) : Layer :=
  let n_layers : ℤ := ⌈height / bag_height⌉
  let layer_thickness : ℝ := height / n_layers
  let y_bottom : ℝ := (i : ℝ) * layer_thickness
  let y_top : ℝ := ((i : ℝ) + 1) * layer_thickness
  let frac_bottom : ℝ := if height ≠ 0 then y_bottom / height else 0
  let frac_top : ℝ := if height ≠ 0 then y_top / height else 1
  let width_bottom : ℝ := w_base + (w_top - w_base) * frac_bottom
  let width_top : ℝ := w_base + (w_top - w_base) * frac_top
  let avg_layer_width : ℝ := (width_bottom + width_top) / 2
  let n_bags_layer : ℤ := ⌊avg_layer_width / bag_width⌋
  let total_bags_width : ℝ := (n_bags_layer : ℝ) * bag_width
  let x_start : ℝ := -(total_bags_width / 2) + bag_width / 2
  { y_bottom := y_bottom
    y_top := y_top
    avg_width := avg_layer_width
    n_bags := n_bags_layer
    bags := (List.range n_bags_layer.toNat).map fun (b : ℕ) =>
      let x_center : ℝ := x_start + (b : ℝ) * bag_width
      { x_left := x_center - bag_width / 2
        x_right := x_center + bag_width / 2
        y_bottom := y_bottom
        y_top := y_top } }

/-- The pure geometric content of
`plot_wall_cross_section_with_bags(height, bag_height, w_base, w_top,
bag_width)`, src/app.py lines 55-130: the ordered bottom-to-top list of
layers, each holding its ordered left-to-right list of bag rectangles.
`none` models the `ZeroDivisionError` raised when a division's divisor is
zero, in source evaluation order: `height / bag_height` at line 78,
`height / n_layers` at line 80, and `avg_layer_width / bag_width` at
line 101 (reached exactly when the layer loop executes at least once,
i.e. when `n_layers` is positive). -/
noncomputable def plot_wall_cross_section_with_bags
    (height bag_height w_base w_top bag_width : ℝ) : Option (List Layer) :=
  if bag_height = 0 then none else
  let n_layers : ℤ := ⌈height / bag_height⌉
  if n_layers = 0 then none else
  if bag_width = 0 ∧ 0 < n_layers then none else
  some ((List.range n_layers.toNat).map
    (mkLayer height bag_height w_base w_top bag_width))

/-! ### Helper lemmas for evaluating ceilings and floors of real literals -/

lemma real_ceil_eq {r : ℝ} {z : ℤ} (h₁ : (z : ℝ) - 1 < r) (h₂ : r ≤ (z : ℝ)) :
    ⌈r⌉ = z :=
  Int.ceil_eq_iff.mpr ⟨h₁, h₂⟩

lemma real_floor_eq {r : ℝ} {z : ℤ} (h₁ : (z : ℝ) ≤ r) (h₂ : r < (z : ℝ) + 1) :
    ⌊r⌋ = z :=
  Int.floor_eq_iff.mpr ⟨h₁, h₂⟩

lemma ceil_one_div_tenth : ⌈(1 : ℝ) / 0.10⌉ = 10 :=
  real_ceil_eq (by norm_num) (by norm_num)

lemma ceil_ten_div_point35 : ⌈(10 : ℝ) / 0.35⌉ = 29 :=
  real_ceil_eq (by norm_num) (by norm_num)

/-! ### C1 -/

/-- C1: on height = 1.0, measurement = 10.0, shape = Straight,
bagLength = 0.35, bagHeight = 0.10 the estimator returns
layerCount = ceil(1.0/0.10) = 10, bagsPerLayer = ceil(10/0.35) = 29 and
totalBags = 10 * 29 = 290, following the algorithm
layerCount = ceil(height/bagHeight), bagsPerLayer =
ceil(effectiveLength/bagLength), totalBags = layerCount * bagsPerLayer. -/
theorem calculate_bags_scenario1 :
    calculate_bags 1 10 .Straight 0.35 0.10 = some (290, 10) ∧
    ⌈(1 : ℝ) / 0.10⌉ = 10 ∧ ⌈(10 : ℝ) / 0.35⌉ = 29 ∧ (290 : ℤ) = 10 * 29 := by
  refine ⟨?_, ceil_one_div_tenth, ceil_ten_div_point35, by norm_num⟩
  rw [calculate_bags, if_neg (by norm_num), if_neg (by norm_num)]
  simp only [effective_length, ceil_one_div_tenth, ceil_ten_div_point35]
  norm_num

/-! ### C2 -/

/-- C2 counterexample: a negative bagHeight (a violated structural
precondition) does NOT make the estimator fail: with bagHeight = -0.10 the
estimator happily returns (-290, -10), so the "raises exactly when zero or
negative" biconditional is false in the negative direction. -/
theorem calculate_bags_negative_bagHeight_no_error :
    calculate_bags 1 10 .Straight 0.35 (-0.10) = some (-290, -10) := by
  rw [calculate_bags, if_neg (by norm_num), if_neg (by norm_num)]
  have h1 : ⌈(1 : ℝ) / (-0.10)⌉ = -10 :=
    real_ceil_eq (by norm_num) (by norm_num)
  simp only [effective_length, h1, ceil_ten_div_point35]
  norm_num

/-- C2 amended: the core operations fail (a `ZeroDivisionError`, the spec's
DomainError) exactly when a divisor of one of their divisions is zero: the
estimator iff bagHeight = 0 or bagLength = 0; the layout engine iff
bagHeight = 0, or ceil(height/bagHeight) = 0 (which covers height = 0), or
bagWidth = 0 while at least one layer is processed.  Negative parameters do
not raise. -/
theorem zero_divisor_error_iff (h m bl bh wb wt bw : ℝ) (s : Shape) :
    (calculate_bags h m s bl bh = none ↔ bh = 0 ∨ bl = 0) ∧
    (plot_wall_cross_section_with_bags h bh wb wt bw = none ↔
      bh = 0 ∨ ⌈h / bh⌉ = 0 ∨ (bw = 0 ∧ 0 < ⌈h / bh⌉)) := by
  constructor
  · simp only [calculate_bags]
    split_ifs with h1 h2 <;> simp_all
  · simp only [plot_wall_cross_section_with_bags]
    split_ifs with h1 h2 h3 <;> simp_all

/-! ### C3 -/

/-- C3 (code bug): at height = 0 the layout engine does NOT produce a
layer and DOES fail: n_layers = ceil(0/bagHeight) = 0 (the code has no
minimum-1 clamp), so `layer_thickness = height / n_layers` at line 80 of
src/app.py divides by zero before the height-zero fraction fallback of
lines 90-91 is ever reached. -/
theorem zero_height_layout_fails :
    plot_wall_cross_section_with_bags 0 0.10 3 1 0.25 = none ∧
    ⌈(0 : ℝ) / 0.10⌉ = 0 := by
  have h0 : ⌈(0 : ℝ) / 0.10⌉ = 0 := by norm_num
  refine ⟨?_, h0⟩
  rw [plot_wall_cross_section_with_bags, if_neg (by norm_num)]
  simp [h0]

/-! ### C4 -/

/-- C4: for radius r > 0 the estimator's effective length for Circle is
2*pi*r and for Semicircle is pi*r, the Semicircle value is exactly half the
Circle value at equal radius, and the Circle value is strictly increasing
in the radius. -/
theorem effective_length_circle_semicircle (r r₁ r₂ : ℝ) (hr : 0 < r)
    (hr₁ : 0 < r₁) (h12 : r₁ < r₂) :
    effective_length .Circle r = 2 * Real.pi * r ∧
    effective_length .Semicircle r = Real.pi * r ∧
    effective_length .Semicircle r = effective_length .Circle r / 2 ∧
    effective_length .Circle r₁ < effective_length .Circle r₂ := by
  refine ⟨rfl, rfl, ?_, ?_⟩
  · simp only [effective_length]
    ring
  · simp only [effective_length]
    have hπ : (0 : ℝ) < 2 * Real.pi := by positivity
    exact (mul_lt_mul_left hπ).mpr h12

/-- Witness for C4 at r = 1, r₁ = 1, r₂ = 2. -/
theorem effective_length_circle_semicircle_witness :
    (0 : ℝ) < 1 ∧ (0 : ℝ) < 1 ∧ (1 : ℝ) < 2 ∧
    (effective_length .Circle 1 = 2 * Real.pi * 1 ∧
     effective_length .Semicircle 1 = Real.pi * 1 ∧
     effective_length .Semicircle 1 = effective_length .Circle 1 / 2 ∧
     effective_length .Circle 1 < effective_length .Circle 2) :=
  ⟨one_pos, one_pos, one_lt_two,
    effective_length_circle_semicircle 1 1 2 one_pos one_pos one_lt_two⟩

/-! ### Layout helper lemmas -/

/-- When no divisor is zero the layout engine returns its layer list. -/
lemma plot_eq_some (h bh wb wt bw : ℝ) (hbh : bh ≠ 0) (hn : ⌈h / bh⌉ ≠ 0)
    (hbw : bw ≠ 0) :
    plot_wall_cross_section_with_bags h bh wb wt bw =
      some ((List.range (⌈h / bh⌉).toNat).map (mkLayer h bh wb wt bw)) := by
  simp only [plot_wall_cross_section_with_bags]
  split_ifs with h1 h2
  · exact absurd h1 hbh
  · exact absurd h2.1 hbw
  · rfl

/-- Every layer's vertical extent is exactly the adjusted layer thickness
`height / n_layers`. -/
lemma mkLayer_thickness (h bh wb wt bw : ℝ) (i : ℕ) :
    (mkLayer h bh wb wt bw i).y_top - (mkLayer h bh wb wt bw i).y_bottom
      = h / (⌈h / bh⌉ : ℝ) := by
  simp only [mkLayer]
  ring

/-! ### C5 -/

/-- C5: for height > 0 and bagHeight > 0 (and nonzero bagLength/bagWidth so
that neither operation fails), both core operations compute the layer count
ceil(height/bagHeight) — the estimator returns it as its second component
and the layout engine produces exactly that many layers — and this count
satisfies layerCount >= 1 and
layerCount * bagHeight >= height > (layerCount - 1) * bagHeight. -/
theorem layer_count_spec (h bh m bl wb wt bw : ℝ) (s : Shape)
    (hh : 0 < h) (hbh : 0 < bh) (hbl : bl ≠ 0) (hbw : bw ≠ 0) :
    (calculate_bags h m s bl bh).map Prod.snd = some ⌈h / bh⌉ ∧
    (plot_wall_cross_section_with_bags h bh wb wt bw).map List.length
      = some (⌈h / bh⌉).toNat ∧
    1 ≤ ⌈h / bh⌉ ∧
    h ≤ (⌈h / bh⌉ : ℝ) * bh ∧
    ((⌈h / bh⌉ : ℝ) - 1) * bh < h := by
  have hbh0 : bh ≠ 0 := ne_of_gt hbh
  have hpos : 0 < h / bh := div_pos hh hbh
  have hn1 : 1 ≤ ⌈h / bh⌉ := Int.ceil_pos.mpr hpos
  refine ⟨?_, ?_, hn1, ?_, ?_⟩
  · rw [calculate_bags, if_neg hbh0, if_neg hbl]
    rfl
  · rw [plot_eq_some h bh wb wt bw hbh0 (by omega) hbw]
    simp
  · exact (div_le_iff₀ hbh).mp (Int.le_ceil _)
  · have hlt : (⌈h / bh⌉ : ℝ) - 1 < h / bh := by
      linarith [Int.ceil_lt_add_one (h / bh)]
    exact (lt_div_iff₀ hbh).mp hlt

/-- Witness for C5 at height = 1, bagHeight = 0.10, measurement = 10,
bagLength = 0.35, baseWidth = 3, topWidth = 1, bagWidth = 0.25,
shape = Straight. -/
theorem layer_count_spec_witness :
    (0 : ℝ) < 1 ∧ (0 : ℝ) < 0.10 ∧ (0.35 : ℝ) ≠ 0 ∧ (0.25 : ℝ) ≠ 0 ∧
    ((calculate_bags 1 10 .Straight 0.35 0.10).map Prod.snd
        = some ⌈(1 : ℝ) / 0.10⌉ ∧
      (plot_wall_cross_section_with_bags 1 0.10 3 1 0.25).map List.length
        = some (⌈(1 : ℝ) / 0.10⌉).toNat ∧
      1 ≤ ⌈(1 : ℝ) / 0.10⌉ ∧
      (1 : ℝ) ≤ (⌈(1 : ℝ) / 0.10⌉ : ℝ) * 0.10 ∧
      ((⌈(1 : ℝ) / 0.10⌉ : ℝ) - 1) * 0.10 < 1) :=
  ⟨by norm_num, by norm_num, by norm_num, by norm_num,
    layer_count_spec 1 0.10 10 0.35 3 1 0.25 .Straight
      (by norm_num) (by norm_num) (by norm_num) (by norm_num)⟩

/-! ### C6 -/

/-- The thickness list of the produced layers is constantly the adjusted
layer thickness `height / n_layers`. -/
lemma thickness_list_replicate (h bh wb wt bw : ℝ) :
    ((List.range (⌈h / bh⌉).toNat).map (mkLayer h bh wb wt bw)).map
        (fun L => L.y_top - L.y_bottom)
      = List.replicate (⌈h / bh⌉).toNat (h / (⌈h / bh⌉ : ℝ)) := by
  refine List.eq_replicate_iff.mpr ⟨by simp, ?_⟩
  intro b hb
  simp only [List.map_map, List.mem_map, List.mem_range] at hb
  obtain ⟨i, _, rfl⟩ := hb
  exact mkLayer_thickness h bh wb wt bw i

/-- C6: for height > 0, bagHeight > 0 (and bagWidth nonzero so that the
layout does not fail), every produced layer has vertical extent
layerThickness = height / layerCount, the sum of the layer extents equals
height exactly, and when height is exactly divisible by bagHeight (i.e.
height/bagHeight is the integer layerCount) the layer thickness equals
bagHeight. -/
theorem layer_tiling_exact (h bh wb wt bw : ℝ)
    (hh : 0 < h) (hbh : 0 < bh) (hbw : bw ≠ 0) :
    (plot_wall_cross_section_with_bags h bh wb wt bw).map
        (fun ls => (ls.map fun L => L.y_top - L.y_bottom).sum) = some h ∧
    (plot_wall_cross_section_with_bags h bh wb wt bw).map
        (fun ls => ls.map fun L => L.y_top - L.y_bottom)
      = some (List.replicate (⌈h / bh⌉).toNat (h / (⌈h / bh⌉ : ℝ))) ∧
    (h / bh = (⌈h / bh⌉ : ℝ) →
      (plot_wall_cross_section_with_bags h bh wb wt bw).map
          (fun ls => ls.map fun L => L.y_top - L.y_bottom)
        = some (List.replicate (⌈h / bh⌉).toNat bh)) := by
  have hbh0 : bh ≠ 0 := ne_of_gt hbh
  have hn1 : 1 ≤ ⌈h / bh⌉ := Int.ceil_pos.mpr (div_pos hh hbh)
  have hn0 : ⌈h / bh⌉ ≠ 0 := by omega
  have hnR : ((⌈h / bh⌉ : ℤ) : ℝ) ≠ 0 := Int.cast_ne_zero.mpr hn0
  rw [plot_eq_some h bh wb wt bw hbh0 hn0 hbw]
  simp only [Option.map_some', thickness_list_replicate, List.sum_replicate]
  refine ⟨?_, trivial, ?_⟩
  · have hcast : ((⌈h / bh⌉).toNat : ℝ) = ((⌈h / bh⌉ : ℤ) : ℝ) := by
      have := Int.toNat_of_nonneg (by omega : (0 : ℤ) ≤ ⌈h / bh⌉)
      exact_mod_cast congrArg (fun z : ℤ => (z : ℝ)) this
    rw [nsmul_eq_mul, hcast, mul_comm, div_mul_cancel₀ _ hnR]
  · intro heq
    have hmul : h = ((⌈h / bh⌉ : ℤ) : ℝ) * bh := (div_eq_iff hbh0).mp heq
    have hι : h / ((⌈h / bh⌉ : ℤ) : ℝ) = bh :=
      (div_eq_iff hnR).mpr (hmul.trans (mul_comm _ _))
    rw [hι]

/-- Witness for C6 at height = 1, bagHeight = 0.10 (exactly divisible),
baseWidth = 3, topWidth = 1, bagWidth = 0.25. -/
theorem layer_tiling_exact_witness :
    (0 : ℝ) < 1 ∧ (0 : ℝ) < 0.10 ∧ (0.25 : ℝ) ≠ 0 ∧
    (1 : ℝ) / 0.10 = (⌈(1 : ℝ) / 0.10⌉ : ℝ) ∧
    ((plot_wall_cross_section_with_bags 1 0.10 3 1 0.25).map
        (fun ls => (ls.map fun L => L.y_top - L.y_bottom).sum) = some 1 ∧
      (plot_wall_cross_section_with_bags 1 0.10 3 1 0.25).map
          (fun ls => ls.map fun L => L.y_top - L.y_bottom)
        = some (List.replicate (⌈(1 : ℝ) / 0.10⌉).toNat 0.10)) := by
  have hdiv : (1 : ℝ) / 0.10 = (⌈(1 : ℝ) / 0.10⌉ : ℝ) := by
    rw [ceil_one_div_tenth]
    norm_num
  have T := layer_tiling_exact 1 0.10 3 1 0.25
    (by norm_num) (by norm_num) (by norm_num)
  exact ⟨by norm_num, by norm_num, by norm_num, hdiv, T.1, T.2.2 hdiv⟩

/-! ### C7 -/

/-- Every layer of a successful layout is the loop body's value at some
layer index. -/
lemma mem_plot_eq_mkLayer {h bh wb wt bw : ℝ} {ls : List Layer}
    (hls : plot_wall_cross_section_with_bags h bh wb wt bw = some ls)
    {L : Layer} (hL : L ∈ ls) :
    ∃ i : ℕ, L = mkLayer h bh wb wt bw i := by
  simp only [plot_wall_cross_section_with_bags] at hls
  split_ifs at hls
  have hval := Option.some.inj hls
  subst hval
  obtain ⟨i, _, rfl⟩ := List.mem_map.mp hL
  exact ⟨i, rfl⟩

/-- The bag centers of a layer are `x_start + b * bag_width` for
`b = 0, ..., n_bags_layer - 1`, with
`x_start = -(n_bags_layer * bag_width)/2 + bag_width/2`. -/
lemma mkLayer_centers (h bh wb wt bw : ℝ) (i : ℕ) :
    ((mkLayer h bh wb wt bw i).bags.map fun B => (B.x_left + B.x_right) / 2)
      = (List.range (mkLayer h bh wb wt bw i).n_bags.toNat).map
          (fun (b : ℕ) => -(((mkLayer h bh wb wt bw i).n_bags : ℝ) * bw) / 2
            + bw / 2 + (b : ℝ) * bw) := by
  simp only [mkLayer, List.map_map]
  refine List.map_congr_left (fun b _ => ?_)
  simp only [Function.comp_apply]
  ring

/-- Reversing an arithmetic progression negated termwise gives the
progression back when it is centered on 0. -/
lemma range_map_neg_reverse (N : ℕ) (s w : ℝ)
    (hs : 2 * s = -((N : ℝ) - 1) * w) :
    ((List.range N).map (fun (b : ℕ) => -(s + (b : ℝ) * w))).reverse
      = (List.range N).map (fun (b : ℕ) => s + (b : ℝ) * w) := by
  apply List.ext_getElem
  · simp
  · intro i h1 h2
    simp only [List.length_map, List.length_range] at h2
    rw [List.getElem_reverse]
    simp only [List.getElem_map, List.getElem_range, List.length_map,
      List.length_range]
    have hcast : ((N - 1 - i : ℕ) : ℝ) = (N : ℝ) - 1 - (i : ℝ) := by
      have he : N - 1 - i = N - (i + 1) := by omega
      rw [he, Nat.cast_sub (by omega)]
      push_cast
      ring
    rw [hcast]
    linear_combination -hs

/-- C7: for every layer produced by the layout engine, the bag center
x-coordinates form the arithmetic progression starting at
`-(n_bags * bag_width)/2 + bag_width/2` with step `bag_width` (bags occupy
total width `n_bags * bag_width` centered on the vertical axis), and the
multiset of centers is symmetric about 0: negating every center permutes
the list of centers. -/
theorem bag_centers_symmetric (h bh wb wt bw : ℝ) (ls : List Layer)
    (L : Layer)
    (hls : plot_wall_cross_section_with_bags h bh wb wt bw = some ls)
    (hL : L ∈ ls) :
    (L.bags.map fun B => (B.x_left + B.x_right) / 2)
      = (List.range L.n_bags.toNat).map
          (fun (b : ℕ) => -((L.n_bags : ℝ) * bw) / 2 + bw / 2 + (b : ℝ) * bw) ∧
    List.Perm
      ((L.bags.map fun B => (B.x_left + B.x_right) / 2).map fun x => -x)
      (L.bags.map fun B => (B.x_left + B.x_right) / 2) := by
  obtain ⟨i, rfl⟩ := mem_plot_eq_mkLayer hls hL
  refine ⟨mkLayer_centers h bh wb wt bw i, ?_⟩
  rw [mkLayer_centers h bh wb wt bw i, List.map_map]
  rcases le_or_lt 0 (mkLayer h bh wb wt bw i).n_bags with hpos | hneg
  · have hNR : (((mkLayer h bh wb wt bw i).n_bags.toNat : ℕ) : ℝ)
        = (((mkLayer h bh wb wt bw i).n_bags : ℤ) : ℝ) := by
      exact_mod_cast congrArg (fun z : ℤ => (z : ℝ)) (Int.toNat_of_nonneg hpos)
    have hrev := range_map_neg_reverse (mkLayer h bh wb wt bw i).n_bags.toNat
      (-(((mkLayer h bh wb wt bw i).n_bags : ℝ) * bw) / 2 + bw / 2) bw
      (by rw [hNR]; ring)
    have hperm := List.reverse_perm
      (((List.range (mkLayer h bh wb wt bw i).n_bags.toNat).map
        (fun (b : ℕ) => -((-(((mkLayer h bh wb wt bw i).n_bags : ℝ) * bw) / 2
          + bw / 2) + (b : ℝ) * bw))))
    rw [hrev] at hperm
    exact hperm.symm
  · have hN0 : (mkLayer h bh wb wt bw i).n_bags.toNat = 0 :=
      Int.toNat_of_nonpos (le_of_lt hneg)
    rw [hN0]
    simp

/-- The layout at height 1, bagHeight 1, baseWidth 1, topWidth 1,
bagWidth 1 is the single layer produced by the loop body at index 0. -/
lemma plot_unit_inputs :
    plot_wall_cross_section_with_bags 1 1 1 1 1
      = some [mkLayer 1 1 1 1 1 0] := by
  have hc : ⌈(1 : ℝ) / 1⌉ = 1 := by
    rw [div_one]
    exact Int.ceil_one
  rw [plot_eq_some 1 1 1 1 1 one_ne_zero (by rw [hc]; norm_num) one_ne_zero,
    hc]
  rfl

/-- Witness for C7 on the single layer of the unit-input layout. -/
theorem bag_centers_symmetric_witness :
    plot_wall_cross_section_with_bags 1 1 1 1 1
        = some [mkLayer 1 1 1 1 1 0] ∧
    mkLayer 1 1 1 1 1 0 ∈ [mkLayer 1 1 1 1 1 0] ∧
    (((mkLayer 1 1 1 1 1 0).bags.map fun B => (B.x_left + B.x_right) / 2)
        = (List.range (mkLayer 1 1 1 1 1 0).n_bags.toNat).map
            (fun (b : ℕ) => -(((mkLayer 1 1 1 1 1 0).n_bags : ℝ) * 1) / 2
              + 1 / 2 + (b : ℝ) * 1) ∧
      List.Perm
        (((mkLayer 1 1 1 1 1 0).bags.map
          fun B => (B.x_left + B.x_right) / 2).map fun x => -x)
        ((mkLayer 1 1 1 1 1 0).bags.map
          fun B => (B.x_left + B.x_right) / 2)) :=
  ⟨plot_unit_inputs, List.mem_singleton.mpr rfl,
    bag_centers_symmetric 1 1 1 1 1 [mkLayer 1 1 1 1 1 0]
      (mkLayer 1 1 1 1 1 0) plot_unit_inputs (List.mem_singleton.mpr rfl)⟩

/-! ### C9 -/

/-- C9: both core operations are deterministic pure functions of their
numeric inputs: two invocations on identical inputs return identical
results.  (The embedding itself witnesses that the computation paths of
src/app.py contain no randomness, time dependence or hidden state.) -/
theorem operations_deterministic (h₁ h₂ m₁ m₂ bl₁ bl₂ bh₁ bh₂ wb₁ wb₂
    wt₁ wt₂ bw₁ bw₂ : ℝ) (s₁ s₂ : Shape)
    (eh : h₁ = h₂) (em : m₁ = m₂) (es : s₁ = s₂) (ebl : bl₁ = bl₂)
    (ebh : bh₁ = bh₂) (ewb : wb₁ = wb₂) (ewt : wt₁ = wt₂) (ebw : bw₁ = bw₂) :
    calculate_bags h₁ m₁ s₁ bl₁ bh₁ = calculate_bags h₂ m₂ s₂ bl₂ bh₂ ∧
    plot_wall_cross_section_with_bags h₁ bh₁ wb₁ wt₁ bw₁
      = plot_wall_cross_section_with_bags h₂ bh₂ wb₂ wt₂ bw₂ := by
  subst eh em es ebl ebh ewb ewt ebw
  exact ⟨rfl, rfl⟩

/-- Witness for C9 at the concrete inputs of scenario 1. -/
theorem operations_deterministic_witness :
    (1 : ℝ) = 1 ∧
    (calculate_bags 1 10 .Straight 0.35 0.10
        = calculate_bags 1 10 .Straight 0.35 0.10 ∧
      plot_wall_cross_section_with_bags 1 0.10 3 1 0.25
        = plot_wall_cross_section_with_bags 1 0.10 3 1 0.25) :=
  ⟨rfl, operations_deterministic 1 1 10 10 0.35 0.35 0.10 0.10 3 3 1 1
    0.25 0.25 .Straight .Straight rfl rfl rfl rfl rfl rfl rfl rfl⟩

/-! ### C10 -/

/-- A successful layout certifies its guards and exposes its layer list. -/
lemma mem_plot_elim {h bh wb wt bw : ℝ} {ls : List Layer}
    (hls : plot_wall_cross_section_with_bags h bh wb wt bw = some ls) :
    bh ≠ 0 ∧ ⌈h / bh⌉ ≠ 0 ∧
      ls = (List.range (⌈h / bh⌉).toNat).map (mkLayer h bh wb wt bw) := by
  simp only [plot_wall_cross_section_with_bags] at hls
  split_ifs at hls with h1 h2 h3
  exact ⟨h1, h2, (Option.some.inj hls).symm⟩

/-- For a layer index actually produced (i < n_layers), with non-negative
base and top widths, the layer's average (midline) width is non-negative:
the interpolation fractions lie in [0, 1], so both interpolated widths are
convex combinations of the two non-negative widths. -/
lemma mkLayer_avg_width_nonneg (h bh wb wt bw : ℝ) (i : ℕ)
    (hwb : 0 ≤ wb) (hwt : 0 ≤ wt) (hi : (i : ℤ) < ⌈h / bh⌉) :
    0 ≤ (mkLayer h bh wb wt bw i).avg_width := by
  have hn_pos : (0 : ℤ) < ⌈h / bh⌉ :=
    lt_of_le_of_lt (Int.natCast_nonneg i) hi
  have hdiv : 0 < h / bh := Int.ceil_pos.mp hn_pos
  have hh0 : h ≠ 0 := by
    intro he
    rw [he, zero_div] at hdiv
    exact lt_irrefl 0 hdiv
  have hnR : (0 : ℝ) < ((⌈h / bh⌉ : ℤ) : ℝ) := by exact_mod_cast hn_pos
  have hnR0 : ((⌈h / bh⌉ : ℤ) : ℝ) ≠ 0 := ne_of_gt hnR
  simp only [mkLayer, if_pos hh0]
  have hfb : ((i : ℝ) * (h / ((⌈h / bh⌉ : ℤ) : ℝ))) / h
      = (i : ℝ) / ((⌈h / bh⌉ : ℤ) : ℝ) := by
    field_simp
    ring
  have hft : (((i : ℝ) + 1) * (h / ((⌈h / bh⌉ : ℤ) : ℝ))) / h
      = ((i : ℝ) + 1) / ((⌈h / bh⌉ : ℤ) : ℝ) := by
    field_simp
    ring
  rw [hfb, hft]
  have hiR : ((i : ℝ) + 1) ≤ ((⌈h / bh⌉ : ℤ) : ℝ) := by
    exact_mod_cast hi
  have key : ∀ f : ℝ, 0 ≤ f → f ≤ 1 → 0 ≤ wb + (wt - wb) * f := by
    intro f h0 h1
    have e : wb + (wt - wb) * f = (1 - f) * wb + f * wt := by ring
    rw [e]
    exact add_nonneg (mul_nonneg (by linarith) hwb) (mul_nonneg h0 hwt)
  have k1 := key ((i : ℝ) / ((⌈h / bh⌉ : ℤ) : ℝ))
    (div_nonneg (Nat.cast_nonneg i) hnR.le)
    (by rw [div_le_one hnR]; linarith)
  have k2 := key (((i : ℝ) + 1) / ((⌈h / bh⌉ : ℤ) : ℝ))
    (div_nonneg (by positivity) hnR.le)
    (by rw [div_le_one hnR]; exact hiR)
  linarith

/-- C10: for every layer produced by the layout engine with non-negative
base and top widths and positive bag width, the bag count
floor(avgLayerWidth / bagWidth) is non-negative and the bags' combined
horizontal span n_bags * bagWidth never exceeds the layer's average
(midline) width. -/
theorem bags_within_avg_width (h bh wb wt bw : ℝ) (ls : List Layer)
    (L : Layer) (hwb : 0 ≤ wb) (hwt : 0 ≤ wt) (hbw : 0 < bw)
    (hls : plot_wall_cross_section_with_bags h bh wb wt bw = some ls)
    (hL : L ∈ ls) :
    0 ≤ L.n_bags ∧ (L.n_bags : ℝ) * bw ≤ L.avg_width := by
  obtain ⟨hbh0, hn0, rfl⟩ := mem_plot_elim hls
  obtain ⟨i, hiR, rfl⟩ := List.mem_map.mp hL
  have hi : (i : ℤ) < ⌈h / bh⌉ := by
    have := List.mem_range.mp hiR
    omega
  have havg := mkLayer_avg_width_nonneg h bh wb wt bw i hwb hwt hi
  have hproj : (mkLayer h bh wb wt bw i).n_bags
      = ⌊(mkLayer h bh wb wt bw i).avg_width / bw⌋ := rfl
  constructor
  · rw [hproj]
    exact Int.floor_nonneg.mpr (div_nonneg havg hbw.le)
  · have hfloor : ((mkLayer h bh wb wt bw i).n_bags : ℝ)
        ≤ (mkLayer h bh wb wt bw i).avg_width / bw := by
      rw [hproj]
      exact_mod_cast Int.floor_le _
    calc ((mkLayer h bh wb wt bw i).n_bags : ℝ) * bw
        ≤ ((mkLayer h bh wb wt bw i).avg_width / bw) * bw :=
          mul_le_mul_of_nonneg_right hfloor hbw.le
      _ = (mkLayer h bh wb wt bw i).avg_width :=
          div_mul_cancel₀ _ (ne_of_gt hbw)

/-- Witness for C10 on the single layer of the unit-input layout. -/
theorem bags_within_avg_width_witness :
    (0 : ℝ) ≤ 1 ∧ (0 : ℝ) < 1 ∧
    plot_wall_cross_section_with_bags 1 1 1 1 1
        = some [mkLayer 1 1 1 1 1 0] ∧
    mkLayer 1 1 1 1 1 0 ∈ [mkLayer 1 1 1 1 1 0] ∧
    (0 ≤ (mkLayer 1 1 1 1 1 0).n_bags ∧
      ((mkLayer 1 1 1 1 1 0).n_bags : ℝ) * 1
        ≤ (mkLayer 1 1 1 1 1 0).avg_width) :=
  ⟨zero_le_one, zero_lt_one, plot_unit_inputs, List.mem_singleton.mpr rfl,
    bags_within_avg_width 1 1 1 1 1 [mkLayer 1 1 1 1 1 0]
      (mkLayer 1 1 1 1 1 0) zero_le_one zero_le_one zero_lt_one
      plot_unit_inputs (List.mem_singleton.mpr rfl)⟩

/-! ### C8 -/

lemma scenario3_avg0 : (mkLayer 1 0.10 3 1 0.25 0).avg_width = 2.9 := by
  simp only [mkLayer, ceil_one_div_tenth]
  norm_num

lemma scenario3_nb0 : (mkLayer 1 0.10 3 1 0.25 0).n_bags = 11 := by
  have hproj : (mkLayer 1 0.10 3 1 0.25 0).n_bags
      = ⌊(mkLayer 1 0.10 3 1 0.25 0).avg_width / 0.25⌋ := rfl
  rw [hproj, scenario3_avg0]
  exact real_floor_eq (by norm_num) (by norm_num)

lemma scenario3_avg9 : (mkLayer 1 0.10 3 1 0.25 9).avg_width = 1.1 := by
  simp only [mkLayer, ceil_one_div_tenth]
  norm_num

lemma scenario3_nb9 : (mkLayer 1 0.10 3 1 0.25 9).n_bags = 4 := by
  have hproj : (mkLayer 1 0.10 3 1 0.25 9).n_bags
      = ⌊(mkLayer 1 0.10 3 1 0.25 9).avg_width / 0.25⌋ := rfl
  rw [hproj, scenario3_avg9]
  exact real_floor_eq (by norm_num) (by norm_num)

/-- C8: on height = 1.0, bagHeight = 0.10, baseWidth = 3.0, topWidth = 1.0,
bagWidth = 0.25 the layout engine produces 10 layers, each of thickness
0.10; layer 0 has average width 2.9 and floor(2.9/0.25) = 11 bags; layer 9
has average width 1.1 and floor(1.1/0.25) = 4 bags. -/
theorem layout_scenario3 :
    (plot_wall_cross_section_with_bags 1 0.10 3 1 0.25).map List.length
        = some 10 ∧
    (plot_wall_cross_section_with_bags 1 0.10 3 1 0.25).map
        (fun ls => ls.map fun L => L.y_top - L.y_bottom)
      = some (List.replicate 10 (0.10 : ℝ)) ∧
    (plot_wall_cross_section_with_bags 1 0.10 3 1 0.25).map
        (fun ls => (ls.map fun L => (L.avg_width, L.n_bags))[0]?)
      = some (some ((2.9 : ℝ), (11 : ℤ))) ∧
    (plot_wall_cross_section_with_bags 1 0.10 3 1 0.25).map
        (fun ls => (ls.map fun L => (L.avg_width, L.n_bags))[9]?)
      = some (some ((1.1 : ℝ), (4 : ℤ))) := by
  have hplot := plot_eq_some 1 0.10 3 1 0.25 (by norm_num)
    (by rw [ceil_one_div_tenth]; norm_num) (by norm_num)
  rw [ceil_one_div_tenth] at hplot
  refine ⟨?_, ?_, ?_, ?_⟩
  · rw [hplot]
    simp
  · rw [hplot, Option.map_some']
    have hthick := thickness_list_replicate 1 0.10 3 1 0.25
    rw [ceil_one_div_tenth] at hthick
    rw [hthick]
    norm_num
    rfl
  · rw [hplot, Option.map_some']
    simp [List.map_map, List.getElem?_map, List.getElem?_range,
      Function.comp, scenario3_avg0, scenario3_nb0]
  · rw [hplot, Option.map_some']
    simp [List.map_map, List.getElem?_map, List.getElem?_range,
      Function.comp, scenario3_avg9, scenario3_nb9]
